import Mathlib

/-
Verification development for the mensabot menu pipeline (src/main.go).

The Go program is shallowly embedded below: strings are Lean `String`
(Go operates on UTF-8 byte strings; every operation used here is
rune-aligned, so a `List Char` view is faithful), the parsed HTML tree
is the inductive `HNode`, and functions that can panic in Go return
`Option`, with `none` standing for a runtime panic.
-/

/- Basic Go string operations, embedded over `List Char`. -/

/-- Embedding of Go `strings.Replace(s, old, new, -1)` for a nonempty
`old`: scan left to right, replace every non-overlapping occurrence,
never rescanning the replacement text.  The recursion is driven by a
fuel counter (structural, so the kernel can evaluate it); one unit of
fuel is spent per consumed input character, so `s.length` units always
suffice.  (The program only calls this with nonempty `old`; for
`old = []` this embedding is the identity.) -/
def replaceAllFuel (old new : List Char) : Nat → List Char → List Char
  | _, [] => []
  | 0, s => s
  | fuel + 1, c :: rest =>
    if old ≠ [] ∧ old.isPrefixOf (c :: rest) then
      new ++ replaceAllFuel old new fuel (rest.drop (old.length - 1))
    else
      c :: replaceAllFuel old new fuel rest

/-- replaceAllFuel with enough fuel to consume the whole input. -/
def replaceAll (old new s : List Char) : List Char := replaceAllFuel old new s.length s

/-- Embedding of Go `strings.Trim(s, cutset)`: remove leading and
trailing characters belonging to `cut`. -/
def trimBoth (cut : List Char) (s : List Char) : List Char :=
  ((s.dropWhile (fun c => cut.contains c)).reverse.dropWhile (fun c => cut.contains c)).reverse

/-- Embedding of Go `strings.Contains(s, sub)`: some position of `s`
starts with `sub`. -/
def strContains : List Char → List Char → Bool
  | [], sub => sub.isPrefixOf []
  | c :: t, sub => sub.isPrefixOf (c :: t) || strContains t sub

/-- The Unicode simple lowercase mapping outside ASCII, the mapping Go
`unicode.ToLower` applies, as compressed ranges `(lo, hi, stride, d)`:
a code point `r` with `lo ≤ r ≤ hi` and `(r - lo) % stride = 0` lowers
to `r + d`; code points in no range lower to themselves.  Stride 2
encodes the alternating upper/lower pair ranges of the Unicode case
table (Go's UpperLower ranges). -/
def lowerRanges : List (Nat × Nat × Nat × Int) :=
  [(192, 214, 1, 32), (216, 222, 1, 32), (256, 302, 2, 1), (304, 304, 1, -199), (306, 310, 2, 1),
   (313, 327, 2, 1), (330, 374, 2, 1), (376, 376, 1, -121), (377, 381, 2, 1),
   (385, 385, 1, 210), (386, 388, 2, 1), (390, 390, 1, 206), (391, 391, 1, 1),
   (393, 394, 1, 205), (395, 395, 1, 1), (398, 398, 1, 79), (399, 399, 1, 202),
   (400, 400, 1, 203), (401, 401, 1, 1), (403, 403, 1, 205), (404, 404, 1, 207),
   (406, 406, 1, 211), (407, 407, 1, 209), (408, 408, 1, 1), (412, 412, 1, 211),
   (413, 413, 1, 213), (415, 415, 1, 214), (416, 420, 2, 1), (422, 422, 1, 218),
   (423, 423, 1, 1), (425, 425, 1, 218), (428, 428, 1, 1), (430, 430, 1, 218),
   (431, 431, 1, 1), (433, 434, 1, 217), (435, 437, 2, 1), (439, 439, 1, 219),
   (440, 440, 1, 1), (444, 444, 1, 1), (452, 452, 1, 2), (453, 453, 1, 1), (455, 455, 1, 2),
   (456, 456, 1, 1), (458, 458, 1, 2), (459, 475, 2, 1), (478, 494, 2, 1), (497, 497, 1, 2),
   (498, 500, 2, 1), (502, 502, 1, -97), (503, 503, 1, -56), (504, 542, 2, 1),
   (544, 544, 1, -130), (546, 562, 2, 1), (570, 570, 1, 10795), (571, 571, 1, 1),
   (573, 573, 1, -163), (574, 574, 1, 10792), (577, 577, 1, 1), (579, 579, 1, -195),
   (580, 580, 1, 69), (581, 581, 1, 71), (582, 590, 2, 1), (880, 882, 2, 1), (886, 886, 1, 1),
   (895, 895, 1, 116), (902, 902, 1, 38), (904, 906, 1, 37), (908, 908, 1, 64),
   (910, 911, 1, 63), (913, 929, 1, 32), (931, 939, 1, 32), (975, 975, 1, 8),
   (984, 1006, 2, 1), (1012, 1012, 1, -60), (1015, 1015, 1, 1), (1017, 1017, 1, -7),
   (1018, 1018, 1, 1), (1021, 1023, 1, -130), (1024, 1039, 1, 80), (1040, 1071, 1, 32),
   (1120, 1152, 2, 1), (1162, 1214, 2, 1), (1216, 1216, 1, 15), (1217, 1229, 2, 1),
   (1232, 1326, 2, 1), (1329, 1366, 1, 48), (4256, 4293, 1, 7264), (4295, 4295, 1, 7264),
   (4301, 4301, 1, 7264), (5024, 5103, 1, 38864), (5104, 5109, 1, 8), (7312, 7354, 1, -3008),
   (7357, 7359, 1, -3008), (7680, 7828, 2, 1), (7838, 7838, 1, -7615), (7840, 7934, 2, 1),
   (7944, 7951, 1, -8), (7960, 7965, 1, -8), (7976, 7983, 1, -8), (7992, 7999, 1, -8),
   (8008, 8013, 1, -8), (8025, 8031, 2, -8), (8040, 8047, 1, -8), (8072, 8079, 1, -8),
   (8088, 8095, 1, -8), (8104, 8111, 1, -8), (8120, 8121, 1, -8), (8122, 8123, 1, -74),
   (8124, 8124, 1, -9), (8136, 8139, 1, -86), (8140, 8140, 1, -9), (8152, 8153, 1, -8),
   (8154, 8155, 1, -100), (8168, 8169, 1, -8), (8170, 8171, 1, -112), (8172, 8172, 1, -7),
   (8184, 8185, 1, -128), (8186, 8187, 1, -126), (8188, 8188, 1, -9), (8486, 8486, 1, -7517),
   (8490, 8490, 1, -8383), (8491, 8491, 1, -8262), (8498, 8498, 1, 28), (8544, 8559, 1, 16),
   (8579, 8579, 1, 1), (9398, 9423, 1, 26), (11264, 11311, 1, 48), (11360, 11360, 1, 1),
   (11362, 11362, 1, -10743), (11363, 11363, 1, -3814), (11364, 11364, 1, -10727),
   (11367, 11371, 2, 1), (11373, 11373, 1, -10780), (11374, 11374, 1, -10749),
   (11375, 11375, 1, -10783), (11376, 11376, 1, -10782), (11378, 11378, 1, 1),
   (11381, 11381, 1, 1), (11390, 11391, 1, -10815), (11392, 11490, 2, 1),
   (11499, 11501, 2, 1), (11506, 11506, 1, 1), (42560, 42604, 2, 1), (42624, 42650, 2, 1),
   (42786, 42798, 2, 1), (42802, 42862, 2, 1), (42873, 42875, 2, 1),
   (42877, 42877, 1, -35332), (42878, 42886, 2, 1), (42891, 42891, 1, 1),
   (42893, 42893, 1, -42280), (42896, 42898, 2, 1), (42902, 42920, 2, 1),
   (42922, 42922, 1, -42308), (42923, 42923, 1, -42319), (42924, 42924, 1, -42315),
   (42925, 42925, 1, -42305), (42926, 42926, 1, -42308), (42928, 42928, 1, -42258),
   (42929, 42929, 1, -42282), (42930, 42930, 1, -42261), (42931, 42931, 1, 928),
   (42932, 42946, 2, 1), (42948, 42948, 1, -48), (42949, 42949, 1, -42307),
   (42950, 42950, 1, -35384), (42951, 42953, 2, 1), (42960, 42960, 1, 1),
   (42966, 42968, 2, 1), (42997, 42997, 1, 1), (65313, 65338, 1, 32), (66560, 66599, 1, 40),
   (66736, 66771, 1, 40), (66928, 66938, 1, 39), (66940, 66954, 1, 39), (66956, 66962, 1, 39),
   (66964, 66965, 1, 39), (68736, 68786, 1, 64), (71840, 71871, 1, 32), (93760, 93791, 1, 32),
   (125184, 125217, 1, 34)]

/-- Embedding of Go `unicode.ToLower` on one rune: ASCII A-Z shift by
32, every other code point goes through the simple lowercase mapping
table. -/
def toLowerGo (c : Char) : Char :=
  if c.toNat ≤ 127 then
    if 65 ≤ c.toNat ∧ c.toNat ≤ 90 then Char.ofNat (c.toNat + 32) else c
  else
    match lowerRanges.find? (fun r =>
        decide (r.1 ≤ c.toNat ∧ c.toNat ≤ r.2.1 ∧ (c.toNat - r.1) % r.2.2.1 = 0)) with
    | some r => Char.ofNat ((Int.ofNat c.toNat + r.2.2.2).toNat)
    | none => c

/-- Embedding of Go `strings.ToLower`: `unicode.ToLower` applied to
every rune. -/
def goToLower (s : String) : String := ⟨s.data.map toLowerGo⟩

/-- Embedding of Go `strings.HasPrefix`. -/
def hasPrefixB (s pre : String) : Bool := pre.data.isPrefixOf s.data

/-- trimNodeName from src/main.go: trim space, tab and newline, then a
single left-to-right replacement pass for each of the four patterns, in
the source order. -/
def trimNodeName (s : String) : String :=
  ⟨replaceAll "  ".data " ".data
    (replaceAll " ,".data ",".data
      (replaceAll " )".data ")".data
        (replaceAll "( ".data "(".data
          (trimBoth " \t\n".data s.data))))⟩

/- The parsed HTML tree and the scrape-library helpers. -/

/-- A parsed HTML node: either a text node or an element with a tag
name, attributes (key-value pairs, first match wins) and children. -/
inductive HNode where
  | text (s : String)
  | elem (tag : String) (attrs : List (String × String)) (children : List HNode)

/-- Embedding of scrape.Attr: the value of the first attribute with the
given key, or the empty string (text nodes carry no attributes). -/
def attrVal : List (String × String) → String → String
  | [], _ => ""
  | (k, v) :: rest, key => if k = key then v else attrVal rest key

/-- Attribute lookup on a node (scrape.Attr). -/
def attrOf : HNode → String → String
  | HNode.text _, _ => ""
  | HNode.elem _ attrs _, key => attrVal attrs key

/-- Split a character list at whitespace characters, keeping the
(possibly empty) chunks; helper for the embedding of Go
`strings.Fields`. -/
def splitWS (acc : List Char) : List Char → List (List Char)
  | [] => [acc.reverse]
  | c :: rest =>
    if c.isWhitespace then acc.reverse :: splitWS [] rest
    else splitWS (c :: acc) rest

/-- Embedding of scrape.ByClass: the whitespace-separated fields of the
class attribute contain the given class (text nodes never match). -/
def hasClass (cl : String) : HNode → Bool
  | HNode.text _ => false
  | HNode.elem _ attrs _ =>
    ((splitWS [] (attrVal attrs "class").data).filter (fun f => !f.isEmpty)).contains cl.data

/-- Embedding of scrape.ByTag(atom.Img): the node is an img element. -/
def isImgTag : HNode → Bool
  | HNode.text _ => false
  | HNode.elem tag _ _ => tag == "img"

mutual
/-- Embedding of scrape.FindAll with searchNested = false: the start
node itself is tested; a matching node is collected without searching
inside it, otherwise the children are searched in document order. -/
def findAll (m : HNode → Bool) : HNode → List HNode
  | HNode.text s => if m (HNode.text s) then [HNode.text s] else []
  | HNode.elem tag attrs cs =>
    if m (HNode.elem tag attrs cs) then [HNode.elem tag attrs cs]
    else findAllList m cs
/-- findAll over a list of sibling nodes, in document order. -/
def findAllList (m : HNode → Bool) : List HNode → List HNode
  | [] => []
  | c :: cs => findAll m c ++ findAllList m cs
end

/-- Modelled from the spec: `scrape.FindAll(node.Parent, ...)` where the
parent pointer may be absent.  The scrape library is an external
collaborator (not under src/); the spec's edge case "if a dish node has
no parent container or no price/icon siblings, produce a Dish with an
all-empty price triple and all-false flags rather than failing" says no
price-cell siblings are found for an absent parent. -/
def findAllOpt (m : HNode → Bool) : Option HNode → List HNode
  | none => []
  | some n => findAll m n

mutual
/-- Modelled from the spec: scrape.Text of the external scrape library
("Extract and normalize the node's text as the name"), embedded as the
concatenation of all descendant text nodes in document order (the
library's per-segment trimming and space-joining is not needed by any
claim). -/
def scrapeText : HNode → String
  | HNode.text s => s
  | HNode.elem _ _ cs => scrapeTextList cs
/-- scrapeText over a list of sibling nodes. -/
def scrapeTextList : List HNode → String
  | [] => ""
  | c :: cs => scrapeText c ++ scrapeTextList cs
end

/- The dish record and its construction (dishFromNode). -/

/-- The dish record of src/main.go; the Go `[3]string` price array is
embedded as a triple. -/
structure dish where
  name : String
  prices : String × String × String
  isVegetarian : Bool
  isVegan : Bool
  containsBeef : Bool
  containsPork : Bool
  containsFish : Bool
  containsChicken : Bool
  lactoseFree : Bool

/-- Embedding of `strings.Replace(text, "\xc2\xa0", "", -1)`: the byte
pair C2 A0 is exactly the UTF-8 encoding of U+00A0, so at the rune
level the non-breaking-space character is removed. -/
def stripNbsp (s : String) : String := ⟨replaceAll [Char.ofNat 160] [] s.data⟩

/-- The price-assignment loop of dishFromNode:
`for i, price := range priceNodes { prices[i] = ... }` over a Go
`[3]string`.  Reaching index 3 is an out-of-range array write, a Go
runtime panic, embedded as `none`. -/
def storePrices : Nat → List String → String × String × String → Option (String × String × String)
  | _, [], ps => some ps
  | i, t :: rest, (a, b, c) =>
    if i = 0 then storePrices 1 rest (t, b, c)
    else if i = 1 then storePrices 2 rest (a, t, c)
    else if i = 2 then storePrices 3 rest (a, b, t)
    else none

/-- The seven boolean flag locals of dishFromNode. -/
structure dishFlags where
  isVegetarian : Bool
  isVegan : Bool
  containsBeef : Bool
  containsPork : Bool
  containsFish : Bool
  containsChicken : Bool
  lactoseFree : Bool

/-- One iteration of the icon loop of dishFromNode: the Go switch on
the lowercased title attribute of an img node. -/
def applyIcon (f : dishFlags) (title : String) : dishFlags :=
  if title = "vegetarisch" then { f with isVegetarian := true }
  else if title = "vegan" then { f with isVegan := true }
  else if title = "mit rind" then { f with containsBeef := true }
  else if title = "mit schwein" then { f with containsPork := true }
  else if title = "mit fisch" then { f with containsFish := true }
  else if title = "mit geflügel" then { f with containsChicken := true }
  else if title = "laktosefrei" then { f with lactoseFree := true }
  else f

/-- The icon loop of dishFromNode over all img descendants, starting
from the zero-initialised flag locals. -/
def flagsFromImgs (imgs : List HNode) : dishFlags :=
  imgs.foldl (fun f im => applyIcon f (goToLower (attrOf im "title")))
    ⟨false, false, false, false, false, false, false⟩

/-- dishFromNode from src/main.go.  The node's parent pointer is passed
explicitly as an `Option HNode`.  The Go function panics when more than
three price cells are found under the parent (out-of-range write into
`prices`); the panic is embedded as `none`.  The returned record copies
the Go composite literal, whose vegetarian field is
`isVegetarian || isVegan`. -/
def dishFromNode (parent : Option HNode) (node : HNode) : Option dish :=
  let name := trimNodeName (scrapeText node)
  let priceNodes := findAllOpt (hasClass "price") parent
  let imgNodes := findAll isImgTag node
  match storePrices 0 (priceNodes.map (fun pn => stripNbsp (scrapeText pn))) ("", "", "") with
  | none => none
  | some ps =>
    let fl := flagsFromImgs imgNodes
    some ⟨name, ps, fl.isVegetarian || fl.isVegan, fl.isVegan, fl.containsBeef,
      fl.containsPork, fl.containsFish, fl.containsChicken, fl.lactoseFree⟩

/- Formatting (dish.String, writeDishes) and favorites. -/

/-- dish.isFavorite from src/main.go, with the configured favorites
list passed explicitly instead of the CONFIG global. -/
def isFavorite (favorites : List String) (d : dish) : Bool :=
  favorites.any (fun f => strContains (goToLower d.name).data f.data)

/-- The diet-emoji branch of dish.String: vegan takes the sunflower,
otherwise a vegetarian dish takes the carrot. -/
def dietEmoji (d : dish) : String :=
  if d.isVegan then " :sunflower:" else if d.isVegetarian then " :carrot:" else ""

/-- dish.String from src/main.go: the markdown table row written into
the buffer, piece by piece in source order. -/
def dishString (favorites : List String) (d : dish) : String :=
  "| " ++ d.name ++ " |" ++
  (if isFavorite favorites d then " :heart_eyes:" else "") ++
  dietEmoji d ++
  (if d.containsBeef then " :cow2:" else "") ++
  (if d.containsPork then " :pig2:" else "") ++
  (if d.containsFish then " :fish:" else "") ++
  (if d.containsChicken then " :rooster:" else "") ++
  (if d.lactoseFree then " :milk_glass:" else "") ++
  " |" ++ " " ++ d.prices.1 ++ " // " ++ d.prices.2.1 ++ " // " ++ d.prices.2.2 ++ " |"

/-- writeDishes from src/main.go: the full message text sent to the
channel (the sending itself is the external chat SDK). -/
def writeDishesMsg (favorites : List String) (dishes : List dish) (pre : String) : String :=
  pre ++ "\n\n" ++ "| Essen | Features | Preise |\n" ++ "| -- | -- | -- |\n" ++
    String.join (dishes.map (fun d => dishString favorites d ++ "\n"))

/- The command dispatcher (handleCommand) and its token patterns. -/

/-- Go regexp `\w`: an ASCII digit, letter or underscore (RE2 Perl
classes are ASCII-only). -/
def wordChar (c : Char) : Bool :=
  decide (48 ≤ c.toNat ∧ c.toNat ≤ 57) || decide (65 ≤ c.toNat ∧ c.toNat ≤ 90) ||
  decide (97 ≤ c.toNat ∧ c.toNat ≤ 122) || decide (c.toNat = 95)

/-- The trailing `(?:$|\W)` of the dispatcher patterns: string end or a
non-word character. -/
def afterOk : List Char → Bool
  | [] => true
  | c :: _ => !wordChar c

/-- Does one of the alternatives start here, followed by a valid
right boundary. -/
def headMatch (alts : List (List Char)) (s : List Char) : Bool :=
  alts.any (fun a => a.isPrefixOf s && afterOk (s.drop a.length))

/-- Unanchored search for `(?:^|\W)(alt1|...|altN)(?:$|\W)` as run by
Go regexp.MatchString: try every position, tracking whether the left
boundary (string start or a preceding non-word character) holds. -/
def tokenScan (alts : List (List Char)) : Bool → List Char → Bool
  | atB, [] => atB && headMatch alts []
  | atB, c :: rest => (atB && headMatch alts (c :: rest)) || tokenScan alts (!wordChar c) rest

/-- regexp.MatchString of one dispatcher pattern against the message. -/
def tokenMatches (alts : List String) (msg : String) : Bool :=
  tokenScan (alts.map String.data) true msg.data

/-- Alternatives of `(?:^|\W)((a|A)live|(r|R)unning|(u|U)p)(?:$|\W)`. -/
def aliveAlts : List String := ["alive", "Alive", "running", "Running", "up", "Up"]

/-- Alternatives of `(?:^|\W)((h|H)eute|(t|T)oday)(?:$|\W)`. -/
def todayAlts : List String := ["heute", "Heute", "today", "Today"]

/-- Alternatives of `(?:^|\W)((m|M)orgen|(t|T)omorrow)(?:$|\W)`. -/
def tomorrowAlts : List String := ["morgen", "Morgen", "tomorrow", "Tomorrow"]

/-- Alternatives of `(?:^|\W)((l|L)egend(|e))(?:$|\W)`. -/
def legendAlts : List String := ["legend", "Legend", "legende", "Legende"]

/-- Alternatives of `(?:^|\W)((c|C)ommmand|(h|H)elp)(?:$|\W)` exactly as
written in src/main.go, including the triple-m `commmand`. -/
def helpAlts : List String := ["commmand", "Commmand", "help", "Help"]

/-- The classification a message receives in handleCommand; each
constructor stands for the branch taken (and the reply it sends). -/
inductive Intent where
  | alive
  | today
  | tomorrow
  | legend
  | help
  | fallback
deriving DecidableEq

/-- handleCommand from src/main.go: the five patterns are tried in
source order, first match wins, otherwise the fallback reply. -/
def handleCommand (msg : String) : Intent :=
  if tokenMatches aliveAlts msg then Intent.alive
  else if tokenMatches todayAlts msg then Intent.today
  else if tokenMatches tomorrowAlts msg then Intent.tomorrow
  else if tokenMatches legendAlts msg then Intent.legend
  else if tokenMatches helpAlts msg then Intent.help
  else Intent.fallback

/- The websocket event handler (handleWebSocketEvent). -/

/-- The fields of a chat post read by the event handler. -/
structure Post where
  userId : String
  channelId : String
  message : String
  id : String
deriving DecidableEq

/-- The fields of a websocket event read by the event handler; `post`
is `none` when the JSON payload does not decode to a post. -/
structure WEvent where
  eventType : String
  post : Option Post
  broadcastChannelId : String
deriving DecidableEq

/-- The SDK constant model.WEBSOCKET_EVENT_POSTED. -/
def WEBSOCKET_EVENT_POSTED : String := "posted"

/-- What handleWebSocketEvent does with an event: nothing, or a call to
the command dispatcher on the post. -/
inductive EventOutcome where
  | ignored
  | dispatched (p : Post)
deriving DecidableEq

/-- handleWebSocketEvent from src/main.go: skip nil events, skip
non-post events, skip undecodable posts, skip the bot's own posts, then
dispatch when the message starts with the mention prefix or the event
was broadcast in the debug channel. -/
def handleWebSocketEvent (botUserId debugChannelId mention : String)
    (ev : Option WEvent) : EventOutcome :=
  match ev with
  | none => EventOutcome.ignored
  | some e =>
    if e.eventType ≠ WEBSOCKET_EVENT_POSTED then EventOutcome.ignored
    else
      match e.post with
      | none => EventOutcome.ignored
      | some p =>
        if p.userId = botUserId then EventOutcome.ignored
        else if hasPrefixB p.message mention then EventOutcome.dispatched p
        else if e.broadcastChannelId = debugChannelId then EventOutcome.dispatched p
        else EventOutcome.ignored

/- Basic lemmas about the string embedding. -/

theorem isPrefixOf_iff_append (a s : List Char) : a.isPrefixOf s = true ↔ ∃ t, s = a ++ t := by
  induction a generalizing s with
  | nil => simp [List.isPrefixOf]
  | cons x xs ih =>
    cases s with
    | nil => simp [List.isPrefixOf]
    | cons y ys =>
      simp only [List.isPrefixOf, Bool.and_eq_true, beq_iff_eq, ih, List.cons_append]
      constructor
      · rintro ⟨rfl, t, rfl⟩
        exact ⟨t, rfl⟩
      · rintro ⟨t, ht⟩
        injection ht with h1 h2
        exact ⟨h1.symm, t, h2⟩

/-- Occurrence of `sub` as a contiguous segment of `s`. -/
def occursIn (sub s : List Char) : Prop := ∃ u v, s = u ++ sub ++ v

theorem strContains_iff (s sub : List Char) : strContains s sub = true ↔ occursIn sub s := by
  induction s with
  | nil =>
    simp only [strContains, isPrefixOf_iff_append, occursIn]
    constructor
    · rintro ⟨t, ht⟩
      exact ⟨[], t, by simpa using ht⟩
    · rintro ⟨u, v, huv⟩
      have h0 : u ++ sub ++ v = [] := huv.symm
      rw [List.append_eq_nil] at h0
      obtain ⟨h1, h2⟩ := h0
      rw [List.append_eq_nil] at h1
      exact ⟨v, by simp [h1.2, h2]⟩
  | cons c t ih =>
    simp only [strContains, Bool.or_eq_true, isPrefixOf_iff_append, ih, occursIn]
    constructor
    · rintro (⟨post, heq⟩ | ⟨u, v, heq⟩)
      · exact ⟨[], post, by simpa using heq⟩
      · exact ⟨c :: u, v, by simp [heq]⟩
    · rintro ⟨u, v, heq⟩
      cases u with
      | nil => exact Or.inl ⟨v, by simpa using heq⟩
      | cons d u2 =>
        rw [List.cons_append, List.cons_append] at heq
        injection heq with h1 h2
        exact Or.inr ⟨u2, v, h2⟩

theorem string_append_nil (a : String) : a ++ "" = a := by
  cases a with
  | mk d => exact congrArg String.mk (List.append_nil d)

/- Claim theorems: C4, C2, C9, C10, C8. -/

/-- Claim C4 counterexample: name normalization applied to the input
string open-paren space space x space close-paren does not produce
"(x)"; the single pass leaves an interior space. -/
theorem trimNodeName_paren_counterexample : trimNodeName "(  x )" ≠ "(x)" := by decide

/-- Claim C4 amended: the single pass maps the input
open-paren space space x space close-paren to "( x)": the paren-space
collapse consumes only one of the two spaces and never rescans its own
output, the space-paren collapse then removes the trailing space, and
no double space remains for the final collapse. -/
theorem trimNodeName_paren_amended : trimNodeName "(  x )" = "( x)" := by decide

/-- Claim C2 (code bug): the help pattern in src/main.go spells the
token commmand with three letters m, so the message "command" falls
through every branch to the fallback reply, while "help" and the
misspelt "commmand" do reach the help branch. -/
theorem handleCommand_command_typo :
    handleCommand "command" = Intent.fallback ∧ handleCommand "help" = Intent.help ∧
      handleCommand "commmand" = Intent.help := by
  refine ⟨?_, ?_, ?_⟩ <;> decide

/-- Claim C9: formatting an empty dish list yields exactly the header
line, a blank line, the table header row and the separator row, with no
dish rows, for every configured favorites list and header prefix. -/
theorem writeDishes_empty (favorites : List String) (pre : String) :
    writeDishesMsg favorites [] pre =
      pre ++ "\n\n" ++ "| Essen | Features | Preise |\n" ++ "| -- | -- | -- |\n" := by
  unfold writeDishesMsg
  rw [show String.join (List.map (fun d => dishString favorites d ++ "\n") []) = "" from rfl]
  exact string_append_nil _

/-- Claim C10: a posted-message event whose sender is the bot itself is
ignored — the dispatcher is never invoked — regardless of the mention
prefix or the broadcast channel. -/
theorem handleWebSocketEvent_own_post_ignored (botUserId debugChannelId mention : String)
    (e : WEvent) (p : Post) (hp : e.post = some p) (hu : p.userId = botUserId) :
    handleWebSocketEvent botUserId debugChannelId mention (some e) = EventOutcome.ignored := by
  by_cases ht : e.eventType = WEBSOCKET_EVENT_POSTED <;>
    simp [handleWebSocketEvent, hp, ht, hu]

/-- Claim C10 witness: a concrete own-post event carrying the mention
prefix and broadcast in the debug channel is still ignored. -/
theorem handleWebSocketEvent_own_post_ignored_witness :
    hasPrefixB "@bot help" "@bot" = true ∧
      handleWebSocketEvent "B" "dbg" "@bot"
        (some ⟨"posted", some ⟨"B", "dbg", "@bot help", "m1"⟩, "dbg"⟩) = EventOutcome.ignored :=
  ⟨by decide,
    handleWebSocketEvent_own_post_ignored "B" "dbg" "@bot"
      ⟨"posted", some ⟨"B", "dbg", "@bot help", "m1"⟩, "dbg"⟩
      ⟨"B", "dbg", "@bot help", "m1"⟩ rfl rfl⟩

/-- Claim C8: a dish is a favorite exactly when its Unicode-lowercased
name contains one of the configured substrings as a contiguous segment;
in particular the favorite "curry" matches the dish "Chicken Curry
Bowl", and the lowering is not merely ASCII: the favorite
"grünkohl" matches the all-uppercase dish name "GRÜNKOHL". -/
theorem isFavorite_contains_iff :
    (∀ (favorites : List String) (d : dish),
      isFavorite favorites d = true ↔
        ∃ f ∈ favorites, occursIn f.data (goToLower d.name).data) ∧
      isFavorite ["curry"]
        ⟨"Chicken Curry Bowl", ("", "", ""), false, false, false, false, false, false, false⟩
        = true ∧
      isFavorite ["grünkohl"]
        ⟨"GRÜNKOHL", ("", "", ""), false, false, false, false, false, false, false⟩
        = true := by
  refine ⟨?_, by decide, by decide⟩
  intro favorites d
  unfold isFavorite
  rw [List.any_eq_true]
  constructor
  · rintro ⟨f, hf, hc⟩
    exact ⟨f, hf, (strContains_iff _ _).mp hc⟩
  · rintro ⟨f, hf, ho⟩
    exact ⟨f, hf, (strContains_iff _ _).mpr ho⟩

/- Characterization of the dispatcher's token patterns: the scanner
finds exactly the word-boundary-delimited occurrences of one of the
alternatives. -/

/-- Left-boundary condition at a position: `pre` is the text before the
candidate occurrence; the boundary holds when `pre` is empty and we are
at the string start (`atB`), or when the last character of `pre` is a
non-word character. -/
def preOk (atB : Bool) (pre : List Char) : Prop :=
  match pre.getLast? with
  | none => atB = true
  | some c => wordChar c = false

theorem getLast?_cons_ne_none (d : Char) (l : List Char) : (d :: l).getLast? ≠ none := by
  induction l generalizing d with
  | nil => simp [List.getLast?]
  | cons e l2 ih =>
    rw [List.getLast?_cons_cons]
    exact ih e

theorem preOk_cons (atB : Bool) (c : Char) (pre : List Char) :
    preOk atB (c :: pre) ↔ preOk (!wordChar c) pre := by
  cases pre with
  | nil =>
    cases hw : wordChar c <;> simp [preOk, hw, List.getLast?]
  | cons d pre2 =>
    unfold preOk
    rw [List.getLast?_cons_cons]
    cases h : (d :: pre2).getLast? with
    | none => exact absurd h (getLast?_cons_ne_none d pre2)
    | some x => rfl

theorem headMatch_iff (alts : List (List Char)) (s : List Char) :
    headMatch alts s = true ↔
      ∃ a post, a ∈ alts ∧ s = a ++ post ∧ afterOk post = true := by
  unfold headMatch
  rw [List.any_eq_true]
  constructor
  · rintro ⟨a, ha, hcond⟩
    rw [Bool.and_eq_true] at hcond
    obtain ⟨hpre, hafter⟩ := hcond
    obtain ⟨post, rfl⟩ := (isPrefixOf_iff_append a s).mp hpre
    refine ⟨a, post, ha, rfl, ?_⟩
    rwa [List.drop_left] at hafter
  · rintro ⟨a, post, ha, rfl, hafter⟩
    refine ⟨a, ha, ?_⟩
    rw [Bool.and_eq_true]
    exact ⟨(isPrefixOf_iff_append a _).mpr ⟨post, rfl⟩, by rwa [List.drop_left]⟩

theorem tokenScan_iff (alts : List (List Char)) (atB : Bool) (s : List Char) :
    tokenScan alts atB s = true ↔
      ∃ pre a post, a ∈ alts ∧ s = pre ++ a ++ post ∧ preOk atB pre ∧ afterOk post = true := by
  induction s generalizing atB with
  | nil =>
    simp only [tokenScan, Bool.and_eq_true, headMatch_iff]
    constructor
    · rintro ⟨hb, a, post, ha, heq, hafter⟩
      exact ⟨[], a, post, ha, by simpa using heq, hb, hafter⟩
    · rintro ⟨pre, a, post, ha, heq, hpre, hafter⟩
      have h0 : pre ++ a ++ post = [] := heq.symm
      rw [List.append_eq_nil] at h0
      obtain ⟨h1, h2⟩ := h0
      rw [List.append_eq_nil] at h1
      subst h2
      have hb : atB = true := by
        have : pre = [] := h1.1
        subst this
        exact hpre
      exact ⟨hb, a, [], ha, by simp [h1.2], rfl⟩
  | cons c rest ih =>
    simp only [tokenScan, Bool.or_eq_true, Bool.and_eq_true, headMatch_iff]
    constructor
    · rintro (⟨hb, a, post, ha, heq, hafter⟩ | hrec)
      · exact ⟨[], a, post, ha, by simpa using heq, hb, hafter⟩
      · obtain ⟨pre, a, post, ha, heq, hpre, hafter⟩ := (ih (!wordChar c)).mp hrec
        exact ⟨c :: pre, a, post, ha, by simp [heq],
          (preOk_cons atB c pre).mpr hpre, hafter⟩
    · rintro ⟨pre, a, post, ha, heq, hpre, hafter⟩
      cases pre with
      | nil =>
        left
        exact ⟨hpre, a, post, ha, by simpa using heq, hafter⟩
      | cons d pre2 =>
        right
        rw [List.cons_append, List.cons_append] at heq
        injection heq with h1 h2
        subst h1
        exact (ih (!wordChar c)).mpr
          ⟨pre2, a, post, ha, h2, (preOk_cons atB c pre2).mp hpre, hafter⟩

/-- A word-boundary-delimited occurrence of one of the alternatives in
the string: some alternative appears as a contiguous segment, with
string start or a non-word character on the left, and string end or a
non-word character on the right.  This is the matching language of the
dispatcher patterns `(?:^|\W)(...)(?:$|\W)` under unanchored search. -/
def DelimOccurs (alts : List (List Char)) (s : List Char) : Prop :=
  ∃ pre a post, a ∈ alts ∧ s = pre ++ a ++ post ∧ preOk true pre ∧ afterOk post = true

theorem tokenMatches_iff (alts : List String) (msg : String) :
    tokenMatches alts msg = true ↔ DelimOccurs (alts.map String.data) msg.data :=
  tokenScan_iff (alts.map String.data) true msg.data

/- Claim theorems: C3 and C6. -/

/-- Claim C3 counterexample: the all-uppercase message "ALIVE" contains
the token alive in some letter case, delimited by string start and end,
yet the dispatcher does not select the alive branch — it falls through
to the fallback — while the lowercase "alive" does select it. -/
theorem handleCommand_uppercase_counterexample :
    handleCommand "ALIVE" = Intent.fallback ∧ handleCommand "alive" = Intent.alive := by
  refine ⟨?_, ?_⟩ <;> decide

/-- Claim C3 amended: dispatcher token matching is word-boundary
delimited but case-insensitive only in the first letter: the alive
branch is selected exactly when the message contains one of the six
spellings alive, Alive, running, Running, up, Up delimited by non-word
characters or string start/end; other casings such as all-uppercase do
not match, and partial-word occurrences never match. -/
theorem handleCommand_alive_iff (msg : String) :
    handleCommand msg = Intent.alive ↔ DelimOccurs (aliveAlts.map String.data) msg.data := by
  unfold handleCommand
  by_cases h : tokenMatches aliveAlts msg
  · simp only [h, if_pos]
    simp only [true_iff]
    exact (tokenMatches_iff aliveAlts msg).mp h
  · have hno : ¬ DelimOccurs (aliveAlts.map String.data) msg.data := fun hd =>
      h ((tokenMatches_iff aliveAlts msg).mpr hd)
    simp only [h, if_neg, Bool.false_eq_true, if_false]
    split_ifs <;> simp [hno]

/-- Claim C6: when a message matches both the today pattern and the
help pattern, the help branch is never selected; and unless the
higher-priority alive pattern also matches, the today branch is
selected (branches are tried in the source order alive, today,
tomorrow, legend, help, fallback, first match winning). -/
theorem handleCommand_today_priority (msg : String)
    (ht : tokenMatches todayAlts msg = true)
    (hh : tokenMatches helpAlts msg = true) :
    handleCommand msg ≠ Intent.help ∧
      (tokenMatches aliveAlts msg = false → handleCommand msg = Intent.today) := by
  unfold handleCommand
  by_cases ha : tokenMatches aliveAlts msg <;> simp [ha, ht, hh]

/-- Claim C6 witness: the concrete message "today help" matches the
today and help patterns, does not match the alive pattern, and is
dispatched to the today branch. -/
theorem handleCommand_today_priority_witness :
    tokenMatches todayAlts "today help" = true ∧
      tokenMatches helpAlts "today help" = true ∧
      tokenMatches aliveAlts "today help" = false ∧
      handleCommand "today help" = Intent.today :=
  ⟨by decide, by decide, by decide,
    (handleCommand_today_priority "today help" (by decide) (by decide)).2 (by decide)⟩

/- Lemmas about the price loop and the icon loop of dishFromNode. -/

theorem storePrices_overflow (l : List String) (i : Nat) (ps : String × String × String)
    (h : 3 < i + l.length) (hi : i ≤ 3) : storePrices i l ps = none := by
  induction l generalizing i ps with
  | nil =>
    rw [List.length_nil] at h
    omega
  | cons t rest ih =>
    obtain ⟨a, b, c⟩ := ps
    rw [List.length_cons] at h
    simp only [storePrices]
    split_ifs with h0 h1 h2
    · exact ih 1 _ (by omega) (by omega)
    · exact ih 2 _ (by omega) (by omega)
    · exact ih 3 _ (by omega) (by omega)
    · rfl

theorem applyIcon_isVegan_mono (f : dishFlags) (t : String) (h : f.isVegan = true) :
    (applyIcon f t).isVegan = true := by
  unfold applyIcon
  split_ifs <;> simp [h]

theorem applyIcon_vegan_isVegan (f : dishFlags) : (applyIcon f "vegan").isVegan = true := by
  unfold applyIcon
  rw [if_neg (by decide), if_pos rfl]

theorem flagsFold_vegan (imgs : List HNode) (f : dishFlags)
    (h : f.isVegan = true ∨ ∃ im ∈ imgs, goToLower (attrOf im "title") = "vegan") :
    (imgs.foldl (fun fl im => applyIcon fl (goToLower (attrOf im "title"))) f).isVegan = true := by
  induction imgs generalizing f with
  | nil =>
    rcases h with h | ⟨im, him, -⟩
    · simpa using h
    · simp at him
  | cons x xs ih =>
    simp only [List.foldl_cons]
    rcases h with h | ⟨im, him, htitle⟩
    · exact ih _ (Or.inl (applyIcon_isVegan_mono _ _ h))
    · rcases List.mem_cons.mp him with rfl | hmem
      · exact ih _ (Or.inl (by rw [htitle]; exact applyIcon_vegan_isVegan f))
      · exact ih _ (Or.inr ⟨im, hmem, htitle⟩)

theorem flagsFromImgs_vegan (imgs : List HNode)
    (h : ∃ im ∈ imgs, goToLower (attrOf im "title") = "vegan") :
    (flagsFromImgs imgs).isVegan = true :=
  flagsFold_vegan imgs _ (Or.inr h)

/- Claim theorems: C1, C5, C7. -/

/-- Claim C1 counterexample: for a dish node whose parent container
holds four price cells, building the Dish does not succeed — the price
loop writes past the three-slot array, a runtime panic (embedded as
`none`), instead of silently dropping the fourth price. -/
theorem dishFromNode_fourPrices_counterexample :
    dishFromNode
      (some (HNode.elem "tr" []
        [HNode.elem "span" [("class", "dish-description")] [HNode.text "Pasta"],
         HNode.elem "td" [("class", "price")] [HNode.text "2,00"],
         HNode.elem "td" [("class", "price")] [HNode.text "3,00"],
         HNode.elem "td" [("class", "price")] [HNode.text "4,00"],
         HNode.elem "td" [("class", "price")] [HNode.text "5,00"]]))
      (HNode.elem "span" [("class", "dish-description")] [HNode.text "Pasta"]) = none := by
  rfl

/-- Claim C1 amended: for every dish node whose parent container has
more than three price-cell descendants, building the Dish fails — the
positional assignment loop indexes the three-slot price array out of
bounds, a Go runtime panic — rather than silently dropping the extra
siblings; only with at most three price cells are the price texts
assigned positionally. -/
theorem dishFromNode_overflow_fails (p n : HNode)
    (h : 3 < (findAll (hasClass "price") p).length) :
    dishFromNode (some p) n = none := by
  have hl : 3 < ((findAllOpt (hasClass "price") (some p)).map
      (fun pn => stripNbsp (scrapeText pn))).length := by
    simpa [findAllOpt, List.length_map] using h
  simp only [dishFromNode]
  rw [storePrices_overflow _ 0 _ (by omega) (by omega)]

/-- Claim C1 witness: a concrete parent with five price cells has more
than three price-cell descendants and dish construction fails on it. -/
theorem dishFromNode_overflow_fails_witness :
    3 < (findAll (hasClass "price") (HNode.elem "tr" []
        [HNode.elem "td" [("class", "price")] [HNode.text "1,10"],
         HNode.elem "td" [("class", "price")] [HNode.text "2,20"],
         HNode.elem "td" [("class", "price")] [HNode.text "3,30"],
         HNode.elem "td" [("class", "price")] [HNode.text "4,40"],
         HNode.elem "td" [("class", "price")] [HNode.text "5,50"]])).length ∧
      dishFromNode
        (some (HNode.elem "tr" []
          [HNode.elem "td" [("class", "price")] [HNode.text "1,10"],
           HNode.elem "td" [("class", "price")] [HNode.text "2,20"],
           HNode.elem "td" [("class", "price")] [HNode.text "3,30"],
           HNode.elem "td" [("class", "price")] [HNode.text "4,40"],
           HNode.elem "td" [("class", "price")] [HNode.text "5,50"]]))
        (HNode.text "Eintopf") = none :=
  ⟨by decide, dishFromNode_overflow_fails _ _ (by decide)⟩

/-- Claim C5: for a dish node with no parent container, or whose parent
has no price cells, and with no icon images, building the Dish succeeds
and yields the normalized name, all three price slots empty and all
seven flags false. -/
theorem dishFromNode_degenerate (po : Option HNode) (n : HNode)
    (hp : po = none ∨ ∃ p, po = some p ∧ findAll (hasClass "price") p = [])
    (hi : findAll isImgTag n = []) :
    dishFromNode po n =
      some ⟨trimNodeName (scrapeText n), ("", "", ""),
        false, false, false, false, false, false, false⟩ := by
  have hpn : findAllOpt (hasClass "price") po = [] := by
    rcases hp with rfl | ⟨p, rfl, hfa⟩
    · rfl
    · simpa [findAllOpt] using hfa
  simp only [dishFromNode, hpn, hi]
  rfl

/-- Claim C5 witness: a concrete dish node with no parent pointer and
no icon images produces the all-empty, all-false Dish. -/
theorem dishFromNode_degenerate_witness :
    findAll isImgTag (HNode.text "Spaghetti") = [] ∧
      dishFromNode none (HNode.text "Spaghetti") =
        some ⟨trimNodeName (scrapeText (HNode.text "Spaghetti")), ("", "", ""),
          false, false, false, false, false, false, false⟩ :=
  ⟨rfl, dishFromNode_degenerate none (HNode.text "Spaghetti") (Or.inl rfl) rfl⟩

/-- Claim C7: whenever dish construction succeeds on a node among whose
icon images one carries the (lowercased) title vegan, the resulting
Dish has both the vegan and the vegetarian flag set, and its row's
diet-emoji segment is exactly the sunflower marker — the carrot is
never also emitted. -/
theorem dishFromNode_vegan (po : Option HNode) (n : HNode) (d : dish)
    (hd : dishFromNode po n = some d)
    (hv : ∃ im ∈ findAll isImgTag n, goToLower (attrOf im "title") = "vegan") :
    d.isVegan = true ∧ d.isVegetarian = true ∧ dietEmoji d = " :sunflower:" := by
  have hfl : (flagsFromImgs (findAll isImgTag n)).isVegan = true := flagsFromImgs_vegan _ hv
  simp only [dishFromNode] at hd
  cases hx : storePrices 0 ((findAllOpt (hasClass "price") po).map
      (fun pn => stripNbsp (scrapeText pn))) ("", "", "") with
  | none =>
    rw [hx] at hd
    exact absurd hd (by simp)
  | some ps =>
    rw [hx] at hd
    simp only [Option.some.injEq] at hd
    subst hd
    refine ⟨hfl, ?_, ?_⟩
    · simp [hfl]
    · simp [dietEmoji, hfl]

/-- Claim C7 witness: a concrete node with a single icon image titled
Vegan produces a Dish with both diet flags true whose diet-emoji
segment is the sunflower. -/
theorem dishFromNode_vegan_witness :
    dishFromNode none (HNode.elem "p" [] [HNode.elem "img" [("title", "Vegan")] []]) =
      some ⟨"", ("", "", ""), true, true, false, false, false, false, false⟩ ∧
      ((⟨"", ("", "", ""), true, true, false, false, false, false, false⟩ : dish).isVegan = true ∧
        (⟨"", ("", "", ""), true, true, false, false, false, false, false⟩ : dish).isVegetarian = true ∧
        dietEmoji ⟨"", ("", "", ""), true, true, false, false, false, false, false⟩ = " :sunflower:") :=
  ⟨rfl,
    dishFromNode_vegan none (HNode.elem "p" [] [HNode.elem "img" [("title", "Vegan")] []])
      ⟨"", ("", "", ""), true, true, false, false, false, false, false⟩ rfl (by decide)⟩
